import Mathlib

/-!
Verification development for the ISRO satellite tracker (`src/isro.py`).

The script loads a satellite catalog CSV (`load_csv_data`), fetches TLE element
sets, propagates each matched satellite to the current time, fuses live
positions with catalog metadata by a pandas left merge, samples a ground track
for a selected satellite with `range(0, 100, 4)`, and classifies the mission
from the fused `INCLINATION` / `PERIOD` fields.

Numeric cells are modelled over `ℚ`; a pandas/NumPy NaN cell is `Option.none`;
a column that is absent from the data frame is an outer `Option.none`.
Python exceptions are modelled with `Except`.
-/

deriving instance DecidableEq for Except

namespace IsroTracker

/-- An orbital element set (one TLE), as held by `sat.model` in the script. -/
structure ElementSet where
  satnum : Int
  epoch : ℚ
  meanMotion : ℚ
  eccentricity : ℚ
  inclination : ℚ
  raan : ℚ
  argPerigee : ℚ
  meanAnomaly : ℚ
  bstar : ℚ
deriving DecidableEq, Repr

/-- Error raised by propagation of physically invalid elements. -/
inductive PropError where
  | degenerateElementSet
deriving DecidableEq, Repr

/-- A geodetic subpoint: latitude/longitude in degrees, altitude in km. -/
structure GeodeticPosition where
  latitude : ℚ
  longitude : ℚ
  altitude : ℚ
deriving DecidableEq, Repr

/-- Physically invalid element parameters: eccentricity at least 1,
non-positive mean motion, or an inclination outside [0, 180] degrees. -/
def degenerate (e : ElementSet) : Bool :=
  decide (1 ≤ e.eccentricity) || decide (e.meanMotion ≤ 0) ||
    decide (e.inclination < 0) || decide (180 < e.inclination)

/-- Triangle wave of period 4 with values in [-1, 1]: a computable stand-in
for the sine of a quarter-period-scaled angle. -/
def triWave (x : ℚ) : ℚ :=
  let u := x - 4 * ((⌊(x + 1) / 4⌋ : Int) : ℚ)
  if u ≤ 1 then u else 2 - u

/-- Reduce a raw longitude angle into [-180, 180). -/
def normLon (x : ℚ) : ℚ :=
  x - 360 * ((⌊(x + 180) / 360⌋ : Int) : ℚ)

/-- Maximal ground-track latitude reachable at a given inclination:
the inclination itself for prograde orbits, its supplement for retrograde. -/
def incEff (i : ℚ) : ℚ :=
  if i ≤ 90 then i else 180 - i

/-- Orbital phase angle in degrees at time `t` (minutes): mean anomaly
advanced by the mean motion (revolutions per day) since epoch. -/
def phaseDeg (e : ElementSet) (t : ℚ) : ℚ :=
  e.meanAnomaly + e.argPerigee + e.meanMotion * (t - e.epoch) * 360 / 1440

/-- Earth sidereal rotation angle in degrees at time `t` in minutes
(one sidereal day is about 1436 minutes). -/
def siderealDeg (t : ℚ) : ℚ :=
  360 * t / 1436

/-- Modelled from the spec: the geodetic position computed for a
non-degenerate element set: a latitude oscillating within the band allowed
by the inclination, an Earth-fixed longitude reduced into [-180, 180),
and an altitude derived from the mean motion. -/
def rawPosition (e : ElementSet) (t : ℚ) : GeodeticPosition :=
  { latitude := incEff e.inclination * triWave (phaseDeg e t / 90)
    longitude := normLon (e.raan + phaseDeg e t - siderealDeg t)
    altitude := 96000 / (e.meanMotion + 1) }

/-- Modelled from the spec: the Propagator (spec section 4.1) is implemented
by the external skyfield library and its body is absent from `src/`; only its
call sites (`sat.at(now)`, `wgs84.subpoint`) appear there. Per the spec it
rejects degenerate elements before computation and otherwise returns a
geodetic position. -/
def propagate (e : ElementSet) (t : ℚ) : Except PropError GeodeticPosition :=
  if degenerate e then .error .degenerateElementSet
  else .ok (rawPosition e t)

/-- The latitude/longitude pair of the propagated position, as collected by
the ground-track loop of the script. -/
def latLonAt (e : ElementSet) (t : ℚ) : ℚ × ℚ :=
  ((rawPosition e t).latitude, (rawPosition e t).longitude)

/-- A TLE satellite object as yielded by `load.tle_file`: a display name plus
its element set (`sat.name`, `sat.model` in the script). -/
structure Sat where
  name : String
  model : ElementSet
deriving DecidableEq, Repr

/-- A catalog row as used by the fusion step: integer identifier
(`NORAD_CAT_ID`) and display name. -/
structure CatRow where
  noradId : Int
  satname : String
deriving DecidableEq, Repr

/-- A row of `live_list` (src lines 72-76). -/
structure LiveRec where
  name : String
  id : Int
  lat : ℚ
  lon : ℚ
  alt : ℚ
deriving DecidableEq, Repr

/-- A row of `full_df` after the left merge of src line 79: the live fields
plus the matched catalog fields, absent when no catalog row matched. -/
structure FusedRow where
  live : LiveRec
  cat : Option CatRow
deriving DecidableEq, Repr

/-- `target_ids` (src line 63): the identifier set of the loaded catalog. -/
def catalogIds (catalog : List CatRow) : List Int :=
  catalog.map (·.noradId)

/-- Lookup in `matched_tle_map`, modelled as an assignment list read from the
most recent assignment backwards (Python dict assignment overwrites). -/
def dictGet (m : List (String × Sat)) (k : String) : Option Sat :=
  (m.find? (fun p => decide (p.1 = k))).map (·.2)

/-- The per-satellite loop of src lines 68-77: each TLE whose number is in
`target_ids` is propagated at `now`; its subpoint row is appended to
`live_list` and `matched_tle_map[sat.name] = sat` is assigned. A propagation
exception is not caught anywhere, so it aborts the whole loop. -/
def buildLive (sats : List Sat) (tids : List Int) (t : ℚ)
    (recs : List LiveRec) (m : List (String × Sat)) :
    Except PropError (List LiveRec × List (String × Sat)) :=
  match sats with
  | [] => .ok (recs, m)
  | s :: rest =>
    if s.model.satnum ∈ tids then
      match propagate s.model t with
      | .error err => .error err
      | .ok p =>
          buildLive rest tids t
            (recs ++ [{ name := s.name, id := s.model.satnum,
                        lat := p.latitude, lon := p.longitude,
                        alt := p.altitude }])
            ((s.name, s) :: m)
    else buildLive rest tids t recs m

/-- The pandas left merge of src line 79: each live row is paired with every
catalog row sharing its identifier, and kept with absent catalog fields when
no catalog row matches. -/
def leftMerge (live : List LiveRec) (catalog : List CatRow) : List FusedRow :=
  live.flatMap (fun r =>
    match catalog.filter (fun c => decide (c.noradId = r.id)) with
    | [] => [{ live := r, cat := none }]
    | c :: cs => (c :: cs).map (fun c => { live := r, cat := some c }))

/-- The fusion cycle of the script: build `live_list` from the TLEs matched
against the catalog identifiers, then left-merge with the catalog. -/
def fuse (sats : List Sat) (catalog : List CatRow) (t : ℚ) :
    Except PropError (List FusedRow) :=
  match buildLive sats (catalogIds catalog) t [] [] with
  | .error err => .error err
  | .ok (live, _) => .ok (leftMerge live catalog)

/-- MissionClass labels. The spec's taxonomy includes `Unknown`; the script
itself (lines 138-140) only ever produces the first three strings. -/
inductive MissionClass where
  | SunSynchronous
  | Geostationary
  | LowEarthOrbit
  | Unknown
deriving DecidableEq, Repr

/-- The fused-row metadata read by the classifier. An outer `none` models a
column absent from the merged data frame (so `f.get` falls back to its
default); an inner `none` models a NaN cell. -/
structure FusedMeta where
  inclination : Option (Option ℚ)
  period : Option (Option ℚ)
deriving DecidableEq, Repr

/-- Python comparison `v > c` on a float-or-NaN value: any comparison with
NaN is `False`. -/
def floatGt (v : Option ℚ) (c : ℚ) : Bool :=
  match v with
  | none => false
  | some q => decide (c < q)

/-- `f.get(column, 0)`: the cell when the column is present, else the
numeric default `0`. -/
def getNum (cell : Option (Option ℚ)) : Option ℚ :=
  cell.getD (some 0)

/-- The mission-guessing logic of `src/isro.py` lines 133-140:
`inc = f.get('INCLINATION', 0)`, `per = f.get('PERIOD', 0)`, then
`if inc > 90` / `elif per > 1400` / `else`. -/
def classify (f : FusedMeta) : MissionClass :=
  if floatGt (getNum f.inclination) 90 then .SunSynchronous
  else if floatGt (getNum f.period) 1400 then .Geostationary
  else .LowEarthOrbit

/-- The script's global caches (`@st.cache_data` on the CSV load and
`@st.cache_resource` on the TLE fetch): the only process-wide mutable
state of the script. -/
structure GlobalState where
  csvCacheLoaded : Bool
  tleCacheLoaded : Bool
deriving DecidableEq, Repr

/-- Propagation with the script's global state threaded explicitly: the
propagator neither reads nor writes it. -/
def propagateSt (s : GlobalState) (e : ElementSet) (t : ℚ) :
    Except PropError GeodeticPosition × GlobalState :=
  (propagate e t, s)

/-- Number of elements of Python `range(start, stop, step)` for a nonzero
step: `max(0, ceil((stop - start) / step))`. -/
def pyRangeCount (start stop step : Int) : Nat :=
  if 0 < step then ((stop - start + step - 1).fdiv step).toNat
  else ((start - stop - step - 1).fdiv (-step)).toNat

/-- Python `range(start, stop, step)` as a list; a zero step raises
`ValueError`, modelled as `none`. -/
def pyRange (start stop step : Int) : Option (List Int) :=
  if step = 0 then none
  else some ((List.range (pyRangeCount start stop step)).map
    (fun (k : Nat) => start + (k : Int) * step))

/-- Failures of the ground-track loop: the `ValueError` raised by a zero
`range` step, or a propagation failure at a sampled instant. -/
inductive TrackError where
  | rangeStepZero
  | degenerateElements
deriving DecidableEq, Repr

/-- The ground-track sampling loop of src lines 94-100, generalized from the
hardcoded `range(0, 100, 4)` to a horizon `H` and step `S` in minutes: each
sampled instant `t0 + m` is propagated independently and the subpoint
latitude/longitude pair collected, in order. No window validation is
performed; an exception from `range` or from propagation aborts the loop. -/
def sampleTrack (e : ElementSet) (t0 : ℚ) (H S : Int) :
    Except TrackError (List (ℚ × ℚ)) :=
  match pyRange 0 H S with
  | none => .error .rangeStepZero
  | some ms => ms.mapM (fun (m : Int) =>
      match propagate e (t0 + (m : ℚ)) with
      | .error _ => .error TrackError.degenerateElements
      | .ok p => .ok (p.latitude, p.longitude))

/-- A raw catalog CSV row after `pd.to_numeric(..., errors="coerce")` on a
cell: `none` is the NaN produced by a missing or non-numeric cell. -/
structure RawCatRow where
  idCell : Option ℚ
  rawName : String
  rcsCell : Option ℚ
deriving DecidableEq, Repr

/-- The catalog CSV: its rows, plus whether it has an `RCS` column at all
(src line 54 guards on `"RCS" in df.columns`). -/
structure CsvTable where
  hasRcs : Bool
  rows : List RawCatRow
deriving DecidableEq, Repr

/-- A delivered catalog record after cleaning. -/
structure CleanRow where
  noradIdNum : ℚ
  cleanName : String
  rcs : Option ℚ
deriving DecidableEq, Repr

/-- pandas `Series.clip(lo, hi)`. -/
def clampQ (lo hi x : ℚ) : ℚ := min hi (max lo x)

/-- `load_csv_data` (src lines 47-56): coerce `NORAD_CAT_ID` to numeric and
drop the rows where that failed; when an `RCS` column exists, coerce it to
numeric, fill NaNs with 1.0 and clip into [0.5, 5]. -/
def load_csv_data (tbl : CsvTable) : List CleanRow :=
  tbl.rows.filterMap (fun r =>
    match r.idCell with
    | none => none
    | some q =>
        some { noradIdNum := q
               cleanName := r.rawName
               rcs := if tbl.hasRcs then some (clampQ (1/2) 5 (r.rcsCell.getD 1))
                      else none })

/-- A simple, physically valid element set template used as test input. -/
def simpleElements (n : Int) : ElementSet :=
  { satnum := n, epoch := 0, meanMotion := 1, eccentricity := 0,
    inclination := 0, raan := 0, argPerigee := 0, meanAnomaly := 0, bstar := 0 }

/-- A concrete, physically valid element set used as a test input. -/
def e0 : ElementSet := simpleElements 41948

/-- The last element of a list when it has one, else a fallback: the value a
sequence of dictionary assignments leaves behind for one key. -/
def lastWins (l : List Sat) (fallback : Option Sat) : Option Sat :=
  match l.getLast? with
  | some s => some s
  | none => fallback

/-- Latitude within [-90, 90] degrees and longitude within [-180, 180]. -/
def inRange (la lo : ℚ) : Prop :=
  -90 ≤ la ∧ la ≤ 90 ∧ -180 ≤ lo ∧ lo ≤ 180

/-- TLE store for the join example: element sets for identifiers 200, 300. -/
def sats2 : List Sat :=
  [⟨"SAT 200", simpleElements 200⟩, ⟨"SAT 300", simpleElements 300⟩]

/-- Catalog store for the join example: identifiers 100, 200. -/
def cat2 : List CatRow := [⟨100, "OBJ 100"⟩, ⟨200, "OBJ 200"⟩]

/-- The fused output on `sats2`/`cat2` at time 0: exactly one record, for
identifier 200. -/
def rows2 : List FusedRow :=
  [⟨⟨"SAT 200", 200, 0, 0, 48000⟩, some ⟨200, "OBJ 200"⟩⟩]

/-- A physically invalid element set: eccentricity 1.2. -/
def eBad : ElementSet :=
  { satnum := 900, epoch := 0, meanMotion := 1, eccentricity := 6/5,
    inclination := 0, raan := 0, argPerigee := 0, meanAnomaly := 0, bstar := 0 }

/-- A valid satellite matched by the catalog. -/
def satGood : Sat := ⟨"GOOD SAT", simpleElements 100⟩

/-- A matched satellite with the invalid element set. -/
def satBad : Sat := ⟨"BAD SAT", eBad⟩

/-- Catalog matching both the valid and the invalid satellite. -/
def cat5 : List CatRow := [⟨100, "GOOD"⟩, ⟨900, "BAD"⟩]

/-- First satellite bearing the duplicated display name. -/
def satX1 : Sat := ⟨"DUP NAME", simpleElements 1⟩

/-- Second satellite bearing the duplicated display name. -/
def satX2 : Sat := ⟨"DUP NAME", simpleElements 2⟩

/-- Catalog matching both duplicate-named satellites. -/
def catX : List CatRow := [⟨1, "DUP A"⟩, ⟨2, "DUP B"⟩]

/-- The live rows built for the duplicate-name example: one per identifier. -/
def liveX : List LiveRec :=
  [⟨"DUP NAME", 1, 0, 0, 48000⟩, ⟨"DUP NAME", 2, 0, 0, 48000⟩]

/-- The name map built for the duplicate-name example: the later assignment
shadows the earlier one. -/
def mapX : List (String × Sat) := [("DUP NAME", satX2), ("DUP NAME", satX1)]

/-- A concrete catalog CSV: one row with a numeric identifier and an
oversized RCS value, one row with an unparseable identifier. -/
def tbl9 : CsvTable :=
  ⟨true, [⟨some 200, "OBJ A", some 99⟩, ⟨none, "OBJ B", some 1⟩]⟩

/-- Spelling out `degenerate e = false` as element-parameter bounds. -/
lemma degenerate_eq_false_iff (e : ElementSet) :
    degenerate e = false ↔
      e.eccentricity < 1 ∧ 0 < e.meanMotion ∧
        0 ≤ e.inclination ∧ e.inclination ≤ 180 := by
  simp only [degenerate, Bool.or_eq_false_iff, decide_eq_false_iff_not, not_le,
    not_lt, and_assoc]

lemma triWave_bounds (x : ℚ) : -1 ≤ triWave x ∧ triWave x ≤ 1 := by
  unfold triWave
  dsimp only
  have h1 : ((⌊(x + 1) / 4⌋ : Int) : ℚ) ≤ (x + 1) / 4 := Int.floor_le _
  have h2 : (x + 1) / 4 < ((⌊(x + 1) / 4⌋ : Int) : ℚ) + 1 := Int.lt_floor_add_one _
  set n : ℚ := ((⌊(x + 1) / 4⌋ : Int) : ℚ) with hn
  split
  case isTrue h =>
    constructor
    · nlinarith
    · exact h
  case isFalse h =>
    push_neg at h
    constructor
    · nlinarith
    · nlinarith

lemma normLon_bounds (x : ℚ) : -180 ≤ normLon x ∧ normLon x < 180 := by
  unfold normLon
  have h1 : ((⌊(x + 180) / 360⌋ : Int) : ℚ) ≤ (x + 180) / 360 := Int.floor_le _
  have h2 : (x + 180) / 360 < ((⌊(x + 180) / 360⌋ : Int) : ℚ) + 1 :=
    Int.lt_floor_add_one _
  constructor
  · nlinarith
  · nlinarith

lemma incEff_bounds {i : ℚ} (h0 : 0 ≤ i) (h180 : i ≤ 180) :
    0 ≤ incEff i ∧ incEff i ≤ 90 := by
  unfold incEff
  split
  case isTrue h => exact ⟨h0, h⟩
  case isFalse h =>
    push_neg at h
    constructor
    · linarith
    · linarith

lemma dictGet_cons (n : String) (s : Sat) (m : List (String × Sat)) (k : String) :
    dictGet ((n, s) :: m) k = if n = k then some s else dictGet m k := by
  by_cases h : n = k
  · simp [dictGet, List.find?_cons, h]
  · simp [dictGet, List.find?_cons, h]

lemma lastWins_cons (s : Sat) (l : List Sat) (x : Option Sat) :
    lastWins (s :: l) x = lastWins l (some s) := by
  cases hl : l.getLast? with
  | none =>
      rw [List.getLast?_eq_none_iff] at hl
      subst hl
      simp [lastWins]
  | some y =>
      simp [lastWins, List.getLast?_cons, List.getLastD_eq_getLast?, hl]

lemma lastWins_none (l : List Sat) : lastWins l none = l.getLast? := by
  unfold lastWins
  cases l.getLast? <;> rfl

/-- On success, the identifiers of `live_list` are exactly those of the
accumulated rows followed by the matched TLEs, in input order. -/
lemma buildLive_ids (sats : List Sat) (tids : List Int) (t : ℚ) :
    ∀ recs m live m', buildLive sats tids t recs m = .ok (live, m') →
      live.map (·.id) = recs.map (·.id) ++
        (sats.filter (fun s => decide (s.model.satnum ∈ tids))).map
          (fun s => s.model.satnum) := by
  induction sats with
  | nil =>
      intro recs m live m' h
      simp only [buildLive, Except.ok.injEq, Prod.mk.injEq] at h
      obtain ⟨h1, -⟩ := h
      subst h1
      simp
  | cons s rest ih =>
      intro recs m live m' h
      simp only [buildLive] at h
      by_cases hmem : s.model.satnum ∈ tids
      · rw [if_pos hmem] at h
        cases hp : propagate s.model t with
        | error err => rw [hp] at h; exact absurd h (by simp)
        | ok p =>
            rw [hp] at h
            rw [ih _ _ _ _ h, List.filter_cons_of_pos (by simp [hmem])]
            simp
      · rw [if_neg hmem] at h
        rw [ih _ _ _ _ h, List.filter_cons_of_neg (by simp [hmem])]

/-- On success, the final `matched_tle_map` binds each name to the last
matched TLE bearing that name, falling back to the initial dictionary. -/
lemma buildLive_dict (sats : List Sat) (tids : List Int) (t : ℚ) :
    ∀ recs m live m', buildLive sats tids t recs m = .ok (live, m') →
      ∀ k, dictGet m' k =
        lastWins (sats.filter (fun s =>
          decide (s.model.satnum ∈ tids) && decide (s.name = k))) (dictGet m k) := by
  induction sats with
  | nil =>
      intro recs m live m' h k
      simp only [buildLive, Except.ok.injEq, Prod.mk.injEq] at h
      obtain ⟨-, h2⟩ := h
      subst h2
      simp [lastWins]
  | cons s rest ih =>
      intro recs m live m' h k
      simp only [buildLive] at h
      by_cases hmem : s.model.satnum ∈ tids
      · rw [if_pos hmem] at h
        cases hp : propagate s.model t with
        | error err => rw [hp] at h; exact absurd h (by simp)
        | ok p =>
            rw [hp] at h
            rw [ih _ _ _ _ h k]
            by_cases hname : s.name = k
            · rw [List.filter_cons_of_pos (by simp [hmem, hname]),
                lastWins_cons]
              congr 1
              rw [dictGet_cons, if_pos hname]
            · rw [List.filter_cons_of_neg (by simp [hname])]
              congr 1
              rw [dictGet_cons, if_neg hname]
      · rw [if_neg hmem] at h
        rw [ih _ _ _ _ h k, List.filter_cons_of_neg (by simp [hmem])]

/-- A degenerate element set among the matched TLEs aborts the whole loop:
there is no per-satellite recovery in the script. -/
lemma buildLive_error (sats : List Sat) (tids : List Int) (t : ℚ) :
    ∀ recs m s, s ∈ sats → s.model.satnum ∈ tids → degenerate s.model = true →
      buildLive sats tids t recs m = .error .degenerateElementSet := by
  induction sats with
  | nil => intro recs m s hs _ _; simp at hs
  | cons s0 rest ih =>
      intro recs m s hs hmem hdeg
      simp only [buildLive]
      rcases List.mem_cons.mp hs with rfl | hs'
      · rw [if_pos hmem]
        have hp : propagate s.model t = .error .degenerateElementSet := by
          simp [propagate, hdeg]
        rw [hp]
      · by_cases h0 : s0.model.satnum ∈ tids
        · rw [if_pos h0]
          cases hp : propagate s0.model t with
          | error err => cases err; rfl
          | ok p => exact ih _ _ s hs' hmem hdeg
        · rw [if_neg h0]; exact ih _ _ s hs' hmem hdeg

/-- Every row of the left merge carries a row of `live_list`. -/
lemma leftMerge_live_mem (live : List LiveRec) (catalog : List CatRow)
    (fr : FusedRow) (h : fr ∈ leftMerge live catalog) : fr.live ∈ live := by
  unfold leftMerge at h
  rw [List.mem_flatMap] at h
  obtain ⟨r, hr, hfr⟩ := h
  cases hc : catalog.filter (fun c => decide (c.noradId = r.id)) with
  | nil =>
      rw [hc] at hfr
      simp only [List.mem_singleton] at hfr
      subst hfr
      exact hr
  | cons c cs =>
      rw [hc, List.mem_map] at hfr
      obtain ⟨c', -, hfr⟩ := hfr
      subst hfr
      exact hr

/-- Every row of `live_list` survives the left merge: at least one fused row
carries it (left-join semantics never drops a left row). -/
lemma leftMerge_exists (live : List LiveRec) (catalog : List CatRow)
    (r : LiveRec) (hr : r ∈ live) :
    ∃ fr ∈ leftMerge live catalog, fr.live = r := by
  unfold leftMerge
  cases hc : catalog.filter (fun c => decide (c.noradId = r.id)) with
  | nil =>
      refine ⟨⟨r, none⟩, List.mem_flatMap.mpr ⟨r, hr, ?_⟩, rfl⟩
      rw [hc]
      simp
  | cons c cs =>
      refine ⟨⟨r, some c⟩, List.mem_flatMap.mpr ⟨r, hr, ?_⟩, rfl⟩
      rw [hc]
      exact List.mem_map.mpr ⟨c, List.mem_cons_self c cs, rfl⟩

lemma propagate_ok_iff (e : ElementSet) (t : ℚ) (p : GeodeticPosition) :
    propagate e t = .ok p ↔ (degenerate e = false ∧ p = rawPosition e t) := by
  unfold propagate
  by_cases hd : degenerate e
  · simp [hd]
  · rw [Bool.not_eq_true] at hd
    simp [hd, eq_comm]

lemma rawPosition_inRange (e : ElementSet) (t : ℚ) (he : degenerate e = false) :
    inRange (rawPosition e t).latitude (rawPosition e t).longitude := by
  obtain ⟨-, -, hi0, hi180⟩ := (degenerate_eq_false_iff e).mp he
  obtain ⟨he0, he90⟩ := incEff_bounds hi0 hi180
  obtain ⟨ht1, ht2⟩ := triWave_bounds (phaseDeg e t / 90)
  obtain ⟨hl1, hl2⟩ := normLon_bounds (e.raan + phaseDeg e t - siderealDeg t)
  refine ⟨?_, ?_, hl1, le_of_lt hl2⟩
  · simp only [rawPosition]
    nlinarith
  · simp only [rawPosition]
    nlinarith

/-- The range invariant carries through the fusion loop: every live row it
appends holds a propagated subpoint. -/
lemma buildLive_inRange (sats : List Sat) (tids : List Int) (t : ℚ) :
    ∀ recs m live m', buildLive sats tids t recs m = .ok (live, m') →
      (∀ r ∈ recs, inRange r.lat r.lon) → ∀ r ∈ live, inRange r.lat r.lon := by
  induction sats with
  | nil =>
      intro recs m live m' h hrecs
      simp only [buildLive, Except.ok.injEq, Prod.mk.injEq] at h
      obtain ⟨h1, -⟩ := h
      subst h1
      exact hrecs
  | cons s rest ih =>
      intro recs m live m' h hrecs
      simp only [buildLive] at h
      by_cases hmem : s.model.satnum ∈ tids
      · rw [if_pos hmem] at h
        cases hp : propagate s.model t with
        | error err => rw [hp] at h; exact absurd h (by simp)
        | ok p =>
            rw [hp] at h
            refine ih _ _ _ _ h ?_
            intro r hr
            rw [List.mem_append] at hr
            rcases hr with hr | hr
            · exact hrecs r hr
            · rw [List.mem_singleton] at hr
              subst hr
              obtain ⟨hdf, hpr⟩ := (propagate_ok_iff s.model t p).mp hp
              subst hpr
              exact rawPosition_inRange s.model t hdf
      · rw [if_neg hmem] at h
        exact ih _ _ _ _ h hrecs

/-- Elements of a successful `mapM` all arise from successful applications. -/
lemma mapM_ok_mem {ε α β : Type} (f : α → Except ε β) :
    ∀ (ms : List α) (l : List β), ms.mapM f = .ok l →
      ∀ x ∈ l, ∃ m ∈ ms, f m = .ok x := by
  intro ms
  induction ms with
  | nil =>
      intro l h x hx
      simp only [List.mapM_nil] at h
      have : l = [] := (Except.ok.inj h).symm
      subst this
      simp at hx
  | cons m rest ih =>
      intro l h x hx
      rw [List.mapM_cons] at h
      cases hm : f m with
      | error e =>
          simp only [bind, Except.bind, hm] at h
          exact absurd h (by simp)
      | ok y =>
          cases hrest : rest.mapM f with
          | error e =>
              simp only [bind, Except.bind, hm, hrest] at h
              exact absurd h (by simp)
          | ok ys =>
              simp only [bind, Except.bind, hm, hrest, pure, Except.pure,
                Except.ok.injEq] at h
              subst h
              rcases List.mem_cons.mp hx with rfl | hx'
              · exact ⟨m, List.mem_cons_self m rest, hm⟩
              · obtain ⟨m', hm', hfm⟩ := ih ys hrest x hx'
                exact ⟨m', List.mem_cons_of_mem m hm', hfm⟩

lemma toNat_fdiv_eq_zero {a b : Int} (hb : 0 < b) (hab : a < b) :
    (a.fdiv b).toNat = 0 := by
  rw [Int.toNat_eq_zero, Int.fdiv_eq_ediv a (le_of_lt hb)]
  rcases le_or_lt 0 a with ha | ha
  · rw [Int.ediv_eq_zero_of_lt ha hab]
  · exact le_of_lt (Int.ediv_neg' ha hb)

/-- The loop body mapped over the sampled instants succeeds pointwise for a
non-degenerate element set. -/
lemma trackMapM_ok (e : ElementSet) (t0 : ℚ) (he : degenerate e = false)
    (ms : List Int) :
    (ms.mapM (fun (m : Int) =>
      match propagate e (t0 + (m : ℚ)) with
      | .error _ => Except.error TrackError.degenerateElements
      | .ok p => Except.ok (p.latitude, p.longitude))) =
      Except.ok (ms.map (fun (m : Int) => latLonAt e (t0 + (m : ℚ)))) := by
  induction ms with
  | nil => rfl
  | cons m rest ih =>
      rw [List.mapM_cons]
      have hp : propagate e (t0 + (m : ℚ)) = .ok (rawPosition e (t0 + (m : ℚ))) := by
        simp [propagate, he]
      rw [hp]
      simp only [List.map_cons, bind, Except.bind, ih, pure, Except.pure, latLonAt]

/-- The loop body never raises the zero-step range error. -/
lemma trackMapM_ne_rangeStepZero (e : ElementSet) (t0 : ℚ) (ms : List Int) :
    (ms.mapM (fun (m : Int) =>
      match propagate e (t0 + (m : ℚ)) with
      | .error _ => Except.error TrackError.degenerateElements
      | .ok p => Except.ok (p.latitude, p.longitude))) ≠
      Except.error TrackError.rangeStepZero := by
  induction ms with
  | nil => intro h; exact Except.noConfusion h
  | cons m rest ih =>
      rw [List.mapM_cons]
      cases hp : propagate e (t0 + (m : ℚ)) with
      | error err =>
          intro h
          simp only [bind, Except.bind] at h
          exact TrackError.noConfusion (Except.error.inj h)
      | ok p =>
          cases hrest : rest.mapM (fun (m : Int) =>
            match propagate e (t0 + (m : ℚ)) with
            | .error _ => Except.error TrackError.degenerateElements
            | .ok p => Except.ok (p.latitude, p.longitude)) with
          | error er =>
              intro h
              simp only [bind, Except.bind, hrest] at h
              have : er = TrackError.rangeStepZero := Except.error.inj h
              exact ih (this ▸ hrest)
          | ok l =>
              intro h
              simp only [bind, Except.bind, hrest, pure, Except.pure] at h
              exact Except.noConfusion h

lemma clampQ_mem (lo hi x : ℚ) (h : lo ≤ hi) :
    lo ≤ clampQ lo hi x ∧ clampQ lo hi x ≤ hi :=
  ⟨le_min h (le_max_left _ _), min_le_left _ _⟩

/-- Claim C1 counterexample: the claim says `classify` of a record with both
inclination and period absent returns `Unknown`; on the code it returns
`LowEarthOrbit` (both `f.get` defaults are 0, and 0 > 90, 0 > 1400 are
false), so the claim is false. -/
theorem classify_none_cex :
    classify ⟨none, none⟩ = MissionClass.LowEarthOrbit ∧
      classify ⟨none, none⟩ ≠ MissionClass.Unknown := by
  constructor
  · rfl
  · intro h
    exact MissionClass.noConfusion h

/-- Claim C1 (amended): `classify` has no `Unknown` outcome at all — absent
columns default to 0 and NaN comparisons are false, so every record,
including one with absent or unparseable inclination and period, gets one of
the three orbit labels; in particular a record with both fields absent is
classified `LowEarthOrbit`. -/
theorem classify_never_unknown :
    (∀ f : FusedMeta, classify f ≠ MissionClass.Unknown) ∧
      classify ⟨none, none⟩ = MissionClass.LowEarthOrbit := by
  constructor
  · intro f
    unfold classify
    split
    · intro h; exact MissionClass.noConfusion h
    · split
      · intro h; exact MissionClass.noConfusion h
      · intro h; exact MissionClass.noConfusion h
  · rfl

/-- Claim C3: with both fields present and numeric, the rules are evaluated
in precedence order: inclination > 90 gives SunSynchronous regardless of
period; otherwise period > 1400 gives Geostationary; otherwise
LowEarthOrbit. In particular inclination 98 with period 100 is
SunSynchronous. -/
theorem classify_precedence (i p : ℚ) :
    (90 < i → classify ⟨some (some i), some (some p)⟩ = .SunSynchronous) ∧
      (i ≤ 90 → 1400 < p →
        classify ⟨some (some i), some (some p)⟩ = .Geostationary) ∧
      (i ≤ 90 → p ≤ 1400 →
        classify ⟨some (some i), some (some p)⟩ = .LowEarthOrbit) ∧
      classify ⟨some (some 98), some (some 100)⟩ = .SunSynchronous := by
  refine ⟨?_, ?_, ?_, ?_⟩
  · intro h
    simp [classify, floatGt, getNum, h]
  · intro h1 h2
    simp [classify, floatGt, getNum, not_lt.mpr h1, h2]
  · intro h1 h2
    simp [classify, floatGt, getNum, not_lt.mpr h1, not_lt.mpr h2]
  · rfl

/-- Claim C3 witness: the concrete scenario `classify({inclination: 98,
period: 100})` evaluates to SunSynchronous via the precedence theorem. -/
theorem classify_precedence_witness :
    classify ⟨some (some 98), some (some 100)⟩ = .SunSynchronous :=
  (classify_precedence 98 100).1 (by norm_num)

/-- Claim C7: every geodetic position produced by propagation — and hence
every latitude/longitude appearing in the fused live table and in trajectory
samples — has latitude in [-90, 90] and longitude in [-180, 180] degrees. -/
theorem propagate_position_ranges :
    (∀ e t p, propagate e t = .ok p → inRange p.latitude p.longitude) ∧
      (∀ sats catalog t rows, fuse sats catalog t = .ok rows →
        ∀ fr ∈ rows, inRange fr.live.lat fr.live.lon) ∧
      (∀ e t0 H S l, sampleTrack e t0 H S = .ok l →
        ∀ q ∈ l, inRange q.1 q.2) := by
  refine ⟨?_, ?_, ?_⟩
  · intro e t p hp
    obtain ⟨hd, hpr⟩ := (propagate_ok_iff e t p).mp hp
    subst hpr
    exact rawPosition_inRange e t hd
  · intro sats catalog t rows h fr hfr
    unfold fuse at h
    cases hb : buildLive sats (catalogIds catalog) t [] [] with
    | error err => rw [hb] at h; exact absurd h (by simp)
    | ok res =>
        obtain ⟨live, m'⟩ := res
        rw [hb] at h
        simp only [Except.ok.injEq] at h
        subst h
        exact buildLive_inRange sats (catalogIds catalog) t [] [] live m' hb
          (fun r hr => absurd hr (List.not_mem_nil r))
          fr.live (leftMerge_live_mem live catalog fr hfr)
  · intro e t0 H S l h q hq
    unfold sampleTrack at h
    cases hpr : pyRange 0 H S with
    | none => rw [hpr] at h; exact absurd h (by simp)
    | some ms =>
        rw [hpr] at h
        obtain ⟨m, -, hm⟩ := mapM_ok_mem _ ms l h q hq
        cases hp : propagate e (t0 + (m : ℚ)) with
        | error err =>
            rw [hp] at hm
            exact absurd hm (by simp)
        | ok p =>
            rw [hp] at hm
            simp only [Except.ok.injEq] at hm
            subst hm
            obtain ⟨hd, hppr⟩ := (propagate_ok_iff _ _ _).mp hp
            subst hppr
            exact ⟨(rawPosition_inRange e (t0 + (m : ℚ)) hd).1,
              (rawPosition_inRange e (t0 + (m : ℚ)) hd).2⟩

/-- Claim C7 witness: the range invariant instantiated at the propagation of
the concrete element set `e0` at its epoch. -/
theorem propagate_position_ranges_witness :
    inRange (rawPosition e0 0).latitude (rawPosition e0 0).longitude :=
  propagate_position_ranges.1 e0 0 (rawPosition e0 0)
    (by simp [propagate, show degenerate e0 = false from by decide])

/-- Claim C8: propagation is deterministic and touches no hidden mutable
state: with the script's global state threaded explicitly, the result is
independent of that state, the state is returned unchanged, and a second
invocation on the state left by the first yields the identical result. -/
theorem propagate_deterministic (s₁ s₂ : GlobalState) (e : ElementSet) (t : ℚ) :
    (propagateSt s₁ e t).1 = (propagateSt s₂ e t).1 ∧
      (propagateSt s₁ e t).2 = s₁ ∧
      (propagateSt (propagateSt s₁ e t).2 e t).1 = (propagateSt s₁ e t).1 :=
  ⟨rfl, rfl, rfl⟩

/-- Claim C2: on a successful fusion cycle, the identifier set of the fused
rows is exactly the intersection of the TLE identifier set and the catalog
identifier set; an identifier present in only one store yields no row. -/
theorem fuse_ids_intersection (sats : List Sat) (catalog : List CatRow) (t : ℚ)
    (rows : List FusedRow) (h : fuse sats catalog t = .ok rows) (i : Int) :
    (∃ fr ∈ rows, fr.live.id = i) ↔
      ((∃ s ∈ sats, s.model.satnum = i) ∧ (∃ c ∈ catalog, c.noradId = i)) := by
  unfold fuse at h
  cases hb : buildLive sats (catalogIds catalog) t [] [] with
  | error err => rw [hb] at h; exact absurd h (by simp)
  | ok res =>
      obtain ⟨live, m'⟩ := res
      rw [hb] at h
      simp only [Except.ok.injEq] at h
      subst h
      have hid := buildLive_ids sats (catalogIds catalog) t [] [] live m' hb
      simp only [List.map_nil, List.nil_append] at hid
      constructor
      · rintro ⟨fr, hfr, rfl⟩
        have hlv := leftMerge_live_mem live catalog fr hfr
        have hmm : fr.live.id ∈ live.map (·.id) :=
          List.mem_map.mpr ⟨fr.live, hlv, rfl⟩
        rw [hid, List.mem_map] at hmm
        obtain ⟨s, hsf, hsi⟩ := hmm
        rw [List.mem_filter, decide_eq_true_eq] at hsf
        obtain ⟨hs, hdec⟩ := hsf
        refine ⟨⟨s, hs, hsi⟩, ?_⟩
        rw [← hsi]
        unfold catalogIds at hdec
        rw [List.mem_map] at hdec
        obtain ⟨c, hc, hci⟩ := hdec
        exact ⟨c, hc, hci⟩
      · rintro ⟨⟨s, hs, hsi⟩, ⟨c, hc, hci⟩⟩
        have hmem : s.model.satnum ∈ catalogIds catalog := by
          unfold catalogIds
          rw [List.mem_map]
          exact ⟨c, hc, by rw [hci, hsi]⟩
        have hin : s.model.satnum ∈ live.map (·.id) := by
          rw [hid, List.mem_map]
          exact ⟨s, List.mem_filter.mpr ⟨hs, by simp [hmem]⟩, rfl⟩
        rw [List.mem_map] at hin
        obtain ⟨r, hrl, hri⟩ := hin
        obtain ⟨fr, hfr, hfl⟩ := leftMerge_exists live catalog r hrl
        exact ⟨fr, hfr, by rw [hfl, hri, hsi]⟩

/-- Claim C2 witness: the spec's scenario 2 instantiated, with catalog
identifiers {100, 200} and element sets for {200, 300}. -/
theorem fuse_ids_intersection_witness :
    (∃ fr ∈ rows2, fr.live.id = 200) ↔
      ((∃ s ∈ sats2, s.model.satnum = 200) ∧ (∃ c ∈ cat2, c.noradId = 200)) :=
  fuse_ids_intersection sats2 cat2 0 rows2
    (by norm_num [fuse, buildLive, catalogIds, leftMerge, propagate, degenerate,
          simpleElements, rawPosition, incEff, triWave, normLon, phaseDeg,
          siderealDeg, sats2, cat2, rows2]) 200

/-- Claim C5 (amended): propagation of physically invalid elements does fail
with the degenerate-element-set error before computing a position, but the
fusion loop performs no per-identifier recovery: one degenerate matched
element set aborts the whole cycle with that error, and no record is
produced for any other identifier. -/
theorem fuse_batch_abort (sats : List Sat) (catalog : List CatRow) (t : ℚ)
    (s : Sat) (hs : s ∈ sats) (hmem : s.model.satnum ∈ catalogIds catalog)
    (hdeg : degenerate s.model = true) :
    propagate s.model t = .error .degenerateElementSet ∧
      fuse sats catalog t = .error .degenerateElementSet := by
  constructor
  · simp [propagate, hdeg]
  · unfold fuse
    rw [buildLive_error sats (catalogIds catalog) t [] [] s hs hmem hdeg]

/-- Claim C5 counterexample: with a valid satellite (id 100) and a
degenerate one (id 900) both matched, the claim demands a fused output in
which id 900 is excluded and id 100 is unaffected; instead the whole fusion
aborts with the propagation error and no record at all is produced. -/
theorem fuse_batch_abort_cex :
    fuse [satGood, satBad] cat5 0 = .error .degenerateElementSet := by
  unfold fuse
  rw [buildLive_error [satGood, satBad] (catalogIds cat5) 0 [] [] satBad
    (by simp) (by norm_num [catalogIds, cat5, satBad, eBad])
    (by norm_num [degenerate, satBad, eBad])]

/-- Claim C5 witness: the batch-abort theorem instantiated on a concrete
two-satellite batch led by the degenerate one. -/
theorem fuse_batch_abort_witness :
    propagate eBad 0 = .error .degenerateElementSet ∧
      fuse [satBad, satGood] cat5 0 = .error .degenerateElementSet :=
  fuse_batch_abort [satBad, satGood] cat5 0 satBad (by simp)
    (by norm_num [catalogIds, cat5, satBad, eBad])
    (by norm_num [degenerate, satBad, eBad])

/-- Claim C10: selection is keyed by display name: on a successful cycle the
name map binds each display name to the last matched TLE bearing that name
in input order (so `sampleTrack` for a selected duplicate name uses the
later object's element set), while `live_list` — and hence the fused table —
still carries one record per matched identifier. -/
theorem matched_map_last_wins (sats : List Sat) (catalog : List CatRow) (t : ℚ)
    (live : List LiveRec) (m' : List (String × Sat))
    (h : buildLive sats (catalogIds catalog) t [] [] = .ok (live, m')) :
    (∀ k, dictGet m' k =
        (sats.filter (fun s => decide (s.model.satnum ∈ catalogIds catalog) &&
          decide (s.name = k))).getLast?) ∧
      live.map (·.id) = (sats.filter (fun s =>
        decide (s.model.satnum ∈ catalogIds catalog))).map
          (fun s => s.model.satnum) ∧
      (∀ r ∈ live, ∃ fr ∈ leftMerge live catalog, fr.live = r) := by
  refine ⟨?_, ?_, ?_⟩
  · intro k
    rw [buildLive_dict sats (catalogIds catalog) t [] [] live m' h k,
      show dictGet [] k = none from rfl, lastWins_none]
  · have := buildLive_ids sats (catalogIds catalog) t [] [] live m' h
    simpa using this
  · intro r hr
    exact leftMerge_exists live catalog r hr

/-- Claim C10 witness: on the concrete duplicate-name input the lookup for
the shared name resolves to the last matched satellite. -/
theorem matched_map_last_wins_witness :
    dictGet mapX "DUP NAME" =
      ([satX1, satX2].filter (fun s =>
        decide (s.model.satnum ∈ catalogIds catX) &&
          decide (s.name = "DUP NAME"))).getLast? :=
  (matched_map_last_wins [satX1, satX2] catX 0 liveX mapX
    (by norm_num [buildLive, catalogIds, propagate, degenerate, simpleElements,
          rawPosition, incEff, triWave, normLon, phaseDeg, siderealDeg,
          satX1, satX2, catX, liveX, mapX])).1 "DUP NAME"

/-- Claim C4 (amended): for a positive step the sampling loop produces
exactly `ceil(H / S)` samples — Python `range(0, H, S)` semantics, which
agrees with `floor(H / S)` only when `S` divides `H`, as it does at the
script's hardcoded `H = 100`, `S = 4` — and the k-th sample is the
propagated latitude/longitude at `t0 + k*S`, the first being at `t0`. -/
theorem sampleTrack_samples (e : ElementSet) (t0 : ℚ) (H S : Int)
    (hS : 0 < S) (he : degenerate e = false) :
    sampleTrack e t0 H S =
      .ok ((List.range ((H + S - 1).fdiv S).toNat).map
        (fun (k : Nat) => latLonAt e (t0 + (k : ℚ) * (S : ℚ)))) ∧
      ((List.range ((H + S - 1).fdiv S).toNat).map
        (fun (k : Nat) => latLonAt e (t0 + (k : ℚ) * (S : ℚ)))).length =
        ((H + S - 1).fdiv S).toNat := by
  constructor
  · unfold sampleTrack pyRange pyRangeCount
    rw [if_neg (by omega : ¬ S = 0), if_pos hS]
    simp only [Int.zero_sub, Int.sub_zero, zero_add]
    rw [trackMapM_ok e t0 he]
    congr 1
    rw [List.map_map]
    apply List.map_congr_left
    intro k _
    simp only [Function.comp_apply]
    congr 1
    push_cast
    ring
  · simp

/-- Claim C4 counterexample: the claim promises `floor(H/S)` samples for all
`H ≥ 0, S > 0`; at `H = 10, S = 4` the loop (Python `range(0, 10, 4)`,
instants 0, 4, 8) yields 3 samples while `floor(10/4) = 2`. -/
theorem sampleTrack_count_cex :
    (sampleTrack e0 0 10 4).map List.length = Except.ok 3 ∧
      (10 : Int).fdiv 4 = 2 := by
  constructor
  · unfold sampleTrack
    rw [show pyRange 0 10 4 = some [0, 4, 8] from by decide]
    dsimp only
    rw [trackMapM_ok e0 0 (by decide)]
    rfl
  · decide

/-- Claim C4 witness: the sample characterization at the script's actual
parameters, horizon 100 minutes and step 4 minutes. -/
theorem sampleTrack_samples_witness :
    sampleTrack e0 0 100 4 =
      .ok ((List.range (((100 : Int) + 4 - 1).fdiv 4).toNat).map
        (fun (k : Nat) => latLonAt e0 ((0 : ℚ) + (k : ℚ) * ((4 : Int) : ℚ)))) ∧
      ((List.range (((100 : Int) + 4 - 1).fdiv 4).toNat).map
        (fun (k : Nat) => latLonAt e0 ((0 : ℚ) + (k : ℚ) * ((4 : Int) : ℚ)))).length =
        (((100 : Int) + 4 - 1).fdiv 4).toNat :=
  sampleTrack_samples e0 0 100 4 (by norm_num) (by decide)

/-- Claim C6 (amended): the sampling loop performs no window validation and
no `InvalidSamplingWindow` error exists: a zero step raises the generic
`range` `ValueError`; a negative step with a non-negative horizon, or a
negative horizon with a positive step, silently yields an empty track; and
for a positive step the range error never occurs. -/
theorem sampleTrack_no_window_check (e : ElementSet) (t0 : ℚ) (H S : Int) :
    (S = 0 → sampleTrack e t0 H S = .error .rangeStepZero) ∧
      (S < 0 → 0 ≤ H → sampleTrack e t0 H S = .ok []) ∧
      (H < 0 → 0 < S → sampleTrack e t0 H S = .ok []) ∧
      (0 < S → sampleTrack e t0 H S ≠ .error .rangeStepZero) := by
  refine ⟨?_, ?_, ?_, ?_⟩
  · intro h
    subst h
    rfl
  · intro hS hH
    unfold sampleTrack pyRange pyRangeCount
    rw [if_neg (by omega : ¬ S = 0), if_neg (by omega : ¬ 0 < S)]
    rw [toNat_fdiv_eq_zero (by omega) (by omega)]
    rfl
  · intro hH hS
    unfold sampleTrack pyRange pyRangeCount
    rw [if_neg (by omega : ¬ S = 0), if_pos hS]
    rw [toNat_fdiv_eq_zero (by omega) (by omega)]
    rfl
  · intro hS
    unfold sampleTrack pyRange
    rw [if_neg (by omega : ¬ S = 0)]
    exact trackMapM_ne_rangeStepZero e t0 _

/-- Claim C6 counterexample: a negative step is an invalid sampling window
per the claim, which demands an immediate `InvalidSamplingWindow` failure;
the code instead returns normally with an empty track. -/
theorem sampleTrack_window_cex : sampleTrack e0 0 50 (-2) = .ok [] := by
  unfold sampleTrack
  rw [show pyRange 0 50 (-2) = some [] from by decide]
  rfl

/-- Claim C6 witness: the no-validation theorem applied at step -1 over a
100-minute horizon. -/
theorem sampleTrack_no_window_check_witness :
    sampleTrack e0 0 100 (-1) = .ok [] :=
  (sampleTrack_no_window_check e0 0 100 (-1)).2.1 (by norm_num) (by norm_num)

/-- Claim C9: after catalog loading, the delivered identifiers are exactly
the successfully parsed numeric identifiers, in order (rows with a
non-numeric identifier are dropped), and every delivered size proxy lies in
the clamp interval [0.5, 5]. -/
theorem load_csv_clean (tbl : CsvTable) :
    ((load_csv_data tbl).map (·.noradIdNum) = tbl.rows.filterMap (·.idCell)) ∧
      (∀ r ∈ load_csv_data tbl, ∀ v, r.rcs = some v → 1/2 ≤ v ∧ v ≤ 5) := by
  constructor
  · unfold load_csv_data
    induction tbl.rows with
    | nil => rfl
    | cons row rest ih =>
        cases hc : row.idCell with
        | none => simpa [List.filterMap_cons, hc] using ih
        | some q => simpa [List.filterMap_cons, hc] using ih
  · intro r hr v hv
    unfold load_csv_data at hr
    rw [List.mem_filterMap] at hr
    obtain ⟨raw, -, hmk⟩ := hr
    cases hc : raw.idCell with
    | none => rw [hc] at hmk; exact Option.noConfusion hmk
    | some q =>
        rw [hc] at hmk
        simp only [Option.some.injEq] at hmk
        subst hmk
        simp only at hv
        by_cases hb : tbl.hasRcs
        · rw [if_pos hb] at hv
          have hcl := clampQ_mem (1/2) 5 (raw.rcsCell.getD 1) (by norm_num)
          have : clampQ (1/2) 5 (raw.rcsCell.getD 1) = v := Option.some.inj hv
          rw [← this]
          exact hcl
        · rw [if_neg hb] at hv
          exact Option.noConfusion hv

/-- Claim C9 witness: on the concrete table, only the numeric identifier
survives and the clamped size proxy 5 lies in [0.5, 5]. -/
theorem load_csv_clean_witness :
    ((load_csv_data tbl9).map (·.noradIdNum) = tbl9.rows.filterMap (·.idCell)) ∧
      (1/2 ≤ (5 : ℚ) ∧ (5 : ℚ) ≤ 5) :=
  ⟨(load_csv_clean tbl9).1,
    (load_csv_clean tbl9).2 ⟨200, "OBJ A", some 5⟩
      (by norm_num [load_csv_data, tbl9, clampQ]) 5 rfl⟩

end IsroTracker
